import Mathlib

/-!
Verification of the session layer of a real-time multiplayer chess server.

The embedding follows the two server-side modules:

* `GameManager` (src/lib/server/game.ts): session state, role assignment
  (`joinGame`), move application with clock charging (`makeMove`),
  clock reads (`getTimeLeft`), lazy end-of-game detection (`isGameOver`).
* the Socket.IO protocol handler (socket server module): `create_game`,
  `join_game`, `rejoin_game`, `make_move` handlers and the `leaveGame`
  helper used by the disconnect path.

The chess rules engine (chess.js) is external to the session layer; it is
modelled as an abstract `RulesEngine` record over an opaque position type,
exactly the capability surface the session code consumes: `turn()`,
`move({from,to,promotion})` (returning `none` both for a `null` result and
for a thrown exception, which the code treats identically), `isGameOver()`
and `fen()`.  Clocks and timestamps are JavaScript numbers that may go
negative, hence `Int`.  JavaScript truthiness of `startTime`
(`!gameState.startTime` is true for both `null` and `0`) and of string
fields is modelled explicitly by `intFalsy` / `strFalsy`.
-/

namespace ChessServer

/-- Side to move as reported by the rules engine (`game.turn()`). -/
inductive Color
  | white
  | black
deriving DecidableEq, Repr

/-- Roles a participant can hold in a session. -/
inductive Role
  | white
  | black
  | spectator
deriving DecidableEq, Repr

/-- The `status` union of `GameState` in game.ts
(`'waiting' | 'ready' | 'playing' | 'ended'`; `'ready'` is declared but
never assigned anywhere in the code). -/
inductive Status
  | waiting
  | ready
  | playing
  | ended
deriving DecidableEq, Repr

/-- The capability surface of the external rules engine (chess.js) that the
session layer consumes.  `move` returns `none` when the candidate move is
rejected (chess.js returns `null` or throws; the server code handles both
identically via `if (move)` plus `try/catch`). -/
structure RulesEngine (Pos : Type) where
  initial : Pos
  turn : Pos → Color
  move : Pos → String → String → String → Option Pos
  isOver : Pos → Bool
  fen : Pos → String

/-- Structure `GameState` from game.ts.  `game` is the chess.js instance (opaque
position), `startTime` is the clock anchor (timestamp of game start / last
charge), `timeWhite`/`timeBlack` are remaining milliseconds. -/
structure GameState (Pos : Type) where
  game : Pos
  white : Option String
  black : Option String
  spectators : List String
  lastMove : Option (String × String)
  startTime : Option Int
  timeWhite : Int
  timeBlack : Int
  status : Status
  isPrivate : Bool
  passwordHash : Option String
deriving DecidableEq, Repr

/-- The manager's `games: Map<string, GameState>`, as an association list. -/
abbrev GamesMap (Pos : Type) := List (String × GameState Pos)

/-- Embeds `this.games.get(gameId)`. -/
def mapGet {Pos : Type} (m : GamesMap Pos) (k : String) : Option (GameState Pos) :=
  (m.find? (fun kv => kv.1 == k)).map (·.2)

/-- Embeds `this.games.set(gameId, gs)` (replace if present, insert otherwise). -/
def mapSet {Pos : Type} (m : GamesMap Pos) (k : String) (v : GameState Pos) : GamesMap Pos :=
  if m.any (fun kv => kv.1 == k) then
    m.map (fun kv => if kv.1 = k then (k, v) else kv)
  else
    m ++ [(k, v)]

/-- Constant `DEFAULT_TIME = 15 * 60 * 1000` (15 minutes in ms). -/
def DEFAULT_TIME : Int := 15 * 60 * 1000

/-- JavaScript truthiness test `!x` for a nullable number
(`null`/`undefined` and `0` are falsy). -/
def intFalsy : Option Int → Bool
  | none => true
  | some t => t = 0

/-- JavaScript truthiness test `!s` for a nullable string
(`null`/`undefined` and `""` are falsy). -/
def strFalsy : Option String → Bool
  | none => true
  | some s => s = ""

/-- Embeds `Set.add` on the spectators set (no duplicates). -/
def specAdd (s : List String) (x : String) : List String :=
  if x ∈ s then s else s ++ [x]

/-- Embeds `GameManager.createGame(gameId, initialState)`, specialised to the only
initial-state shape the protocol handler ever passes:
`{ isPrivate, passwordHash? }` spread over the defaults. -/
def createGame {Pos : Type} (E : RulesEngine Pos) (games : GamesMap Pos)
    (gameId : String) (isPrivate : Bool) (passwordHash : Option String) :
    GamesMap Pos :=
  mapSet games gameId
    { game := E.initial
      white := none
      black := none
      spectators := []
      lastMove := none
      status := Status.waiting
      timeWhite := DEFAULT_TIME
      timeBlack := DEFAULT_TIME
      startTime := none
      isPrivate := isPrivate
      passwordHash := passwordHash }

/-- Embeds `GameManager.joinGame(gameId, playerId, preferredColor)`.
Returns the assigned role (or `none` when the game does not exist) and the
updated map.  The early returns for a player already present precede every
mutation, including the waiting→playing transition block. -/
def joinGame {Pos : Type} (games : GamesMap Pos) (gameId playerId : String)
    (preferredColor : Option Role) (now : Int) : Option Role × GamesMap Pos :=
  match mapGet games gameId with
  | none => (none, games)
  | some gs =>
    if gs.white = some playerId then (some Role.white, games)
    else if gs.black = some playerId then (some Role.black, games)
    else if playerId ∈ gs.spectators then (some Role.spectator, games)
    else
      let assigned : Role × GameState Pos :=
        if preferredColor = some Role.white ∧ gs.white = none then
          (Role.white, { gs with white := some playerId })
        else if preferredColor = some Role.black ∧ gs.black = none then
          (Role.black, { gs with black := some playerId })
        else if preferredColor ≠ some Role.spectator ∧ gs.white = none then
          (Role.white, { gs with white := some playerId })
        else if preferredColor ≠ some Role.spectator ∧ gs.black = none then
          (Role.black, { gs with black := some playerId })
        else
          (Role.spectator, { gs with spectators := specAdd gs.spectators playerId })
      let gs1 := assigned.2
      let gs2 :=
        if gs1.white ≠ none ∧ gs1.black ≠ none ∧ gs1.status = Status.waiting then
          { gs1 with status := Status.playing, startTime := some now }
        else gs1
      (some assigned.1, mapSet games gameId gs2)

/-- Embeds `GameManager.makeMove(gameId, playerId, from, to)`.
Note the source order: the turn is read, the mover's clock is charged
`now - startTime` (after the `if (!gameState.startTime) startTime = now`
truthiness guard), and only then is the rules engine consulted; when the
engine rejects the move the function returns `false` but the charged clock
(and a `startTime` set from the falsy guard) remain in the stored state. -/
def makeMove {Pos : Type} (E : RulesEngine Pos) (games : GamesMap Pos)
    (gameId playerId fromSq toSq : String) (now : Int) : Bool × GamesMap Pos :=
  match mapGet games gameId with
  | none => (false, games)
  | some gs =>
    if gs.white = none ∨ gs.black = none then (false, games)
    else if ¬(gs.white = some playerId) ∧ ¬(gs.black = some playerId) then (false, games)
    else if (E.turn gs.game = Color.white ∧ ¬(gs.white = some playerId)) ∨
            (E.turn gs.game = Color.black ∧ ¬(gs.black = some playerId)) then (false, games)
    else
      let st : Int := if intFalsy gs.startTime then now else gs.startTime.getD now
      let gsB : GameState Pos :=
        if E.turn gs.game = Color.white then
          { gs with startTime := some st, timeWhite := gs.timeWhite - (now - st) }
        else
          { gs with startTime := some st, timeBlack := gs.timeBlack - (now - st) }
      match E.move gs.game fromSq toSq "q" with
      | some p =>
        let gsC := { gsB with game := p, lastMove := some (fromSq, toSq), startTime := some now }
        let gsD := if E.isOver p then { gsC with status := Status.ended } else gsC
        (true, mapSet games gameId gsD)
      | none => (false, mapSet games gameId gsB)

/-- Embeds `GameManager.getFEN(gameId)`. -/
def getFEN {Pos : Type} (E : RulesEngine Pos) (games : GamesMap Pos)
    (gameId : String) : Option String :=
  (mapGet games gameId).map (fun gs => E.fen gs.game)

/-- Embeds `GameManager.isGameOver(gameId)`.  A read that mutates: when either
stored clock is `<= 0` it sets `status = 'ended'` before returning. -/
def isGameOver {Pos : Type} (E : RulesEngine Pos) (games : GamesMap Pos)
    (gameId : String) : Bool × GamesMap Pos :=
  match mapGet games gameId with
  | none => (false, games)
  | some gs =>
    if gs.timeWhite ≤ 0 then
      (true, mapSet games gameId { gs with status := Status.ended })
    else if gs.timeBlack ≤ 0 then
      (true, mapSet games gameId { gs with status := Status.ended })
    else
      (E.isOver gs.game, games)

/-- Embeds `GameManager.getTimeLeft(gameId)`.  The method performs no assignment,
so the translated state component is returned untouched; the displayed
decrement is clamped at zero and applied only to the side to move. -/
def getTimeLeft {Pos : Type} (E : RulesEngine Pos) (games : GamesMap Pos)
    (gameId : String) (now : Int) : (Int × Int) × GamesMap Pos :=
  match mapGet games gameId with
  | none => ((DEFAULT_TIME, DEFAULT_TIME), games)
  | some gs =>
    if intFalsy gs.startTime ∨ gs.status ≠ Status.playing then
      ((gs.timeWhite, gs.timeBlack), games)
    else
      let t : Int := gs.startTime.getD 0
      if E.turn gs.game = Color.white then
        ((max 0 (gs.timeWhite - (now - t)), gs.timeBlack), games)
      else
        ((gs.timeWhite, max 0 (gs.timeBlack - (now - t))), games)

/-! ### Protocol handler (socket server module) -/

/-- The payload signed into a reconnection token
(`jwt.sign({ gameId, playerId, role, isPrivate }, JWT_SECRET)`). -/
structure TokenPayload where
  gameId : String
  playerId : String
  role : Role
  isPrivate : Bool
deriving DecidableEq, Repr

/-- A presented token string: either a bundle genuinely signed with the
server's secret, or anything failing signature verification. -/
inductive Token
  | signed (payload : TokenPayload)
  | invalid
deriving DecidableEq, Repr

/-- Embeds `jwt.verify(token, JWT_SECRET)`: `none` models the thrown
verification error, which the handler's `catch` turns into an error reply
without touching any state. -/
def jwtVerify : Token → Option TokenPayload
  | Token.signed p => some p
  | Token.invalid => none

/-- Replies of the `join_game` handler that are visible to the requester. -/
inductive JoinReply
  | errGameNotFound
  | passwordRequired
  | invalidPassword
  | joined (role : Role) (fen : String) (lastMove : Option (String × String)) (isPrivate : Bool)
  | noReply
deriving DecidableEq, Repr

/-- Tail of the `join_game` handler after the privacy gate: the handler
computes the role itself from current seat occupancy, passes it to
`joinGame` as the preference, and emits the *precomputed* role. -/
def joinGameProceed {Pos : Type} (E : RulesEngine Pos) (games : GamesMap Pos)
    (socketId gameId : String) (gs : GameState Pos) (now : Int) :
    JoinReply × GamesMap Pos :=
  let role : Role :=
    if gs.white = none then Role.white
    else if gs.black = none then Role.black
    else Role.spectator
  let res := joinGame games gameId socketId (some role) now
  match res.1 with
  | some _ =>
    (JoinReply.joined role ((getFEN E res.2 gameId).getD "") gs.lastMove gs.isPrivate, res.2)
  | none => (JoinReply.noReply, res.2)

/-- The `join_game` socket handler.  `compare pw hash` models
`bcrypt.compare(password, gameState.passwordHash)`.  The privacy gate runs
only when the game `isPrivate` *and* a password hash is actually stored. -/
def join_game {Pos : Type} (E : RulesEngine Pos) (compare : String → String → Bool)
    (games : GamesMap Pos) (socketId gameId : String) (password : Option String)
    (now : Int) : JoinReply × GamesMap Pos :=
  match mapGet games gameId with
  | none => (JoinReply.errGameNotFound, games)
  | some gs =>
    if gs.isPrivate ∧ gs.passwordHash ≠ none then
      if strFalsy password then (JoinReply.passwordRequired, games)
      else if compare (password.getD "") (gs.passwordHash.getD "") = false then
        (JoinReply.invalidPassword, games)
      else joinGameProceed E games socketId gameId gs now
    else joinGameProceed E games socketId gameId gs now

/-- Replies of the `rejoin_game` handler. -/
inductive RejoinReply
  | noReply
  | errFailedRejoin
  | errInvalidSession
  | errGameNotFound
  | joined (role : Role) (fen : String)
deriving DecidableEq, Repr

/-- The `rejoin_game` socket handler: verify the token, check the embedded
`gameId`, then rebind the stored role to the presenting socket id —
unconditionally overwriting whoever currently holds that seat — and reply
with the current position.  No clock, status, position or lastMove field is
touched. -/
def rejoin_game {Pos : Type} (E : RulesEngine Pos) (games : GamesMap Pos)
    (socketId gameId : String) (token : Option Token) :
    RejoinReply × GamesMap Pos :=
  match token with
  | none => (RejoinReply.noReply, games)
  | some tok =>
    match jwtVerify tok with
    | none => (RejoinReply.errFailedRejoin, games)
    | some session =>
      if session.gameId ≠ gameId then (RejoinReply.errInvalidSession, games)
      else
        match mapGet games gameId with
        | none => (RejoinReply.errGameNotFound, games)
        | some gs =>
          let gs1 :=
            match session.role with
            | Role.white => { gs with white := some socketId }
            | Role.black => { gs with black := some socketId }
            | Role.spectator => { gs with spectators := specAdd gs.spectators socketId }
          let games1 := mapSet games gameId gs1
          (RejoinReply.joined session.role ((getFEN E games1 gameId).getD ""), games1)

/-- The `create_game` socket handler (state-relevant part): hash and store
the password only when `isPrivate` and a truthy password were supplied,
create the game, and join the creator with preference white. -/
def create_game {Pos : Type} (E : RulesEngine Pos) (hash : String → String)
    (games : GamesMap Pos) (socketId gameId : String) (isPrivate : Bool)
    (password : Option String) (now : Int) : Option Role × GamesMap Pos :=
  let passwordHash : Option String :=
    if isPrivate ∧ ¬ strFalsy password then some (hash (password.getD "")) else none
  let games1 := createGame E games gameId isPrivate passwordHash
  joinGame games1 gameId socketId (some Role.white) now

/-- The `check_game_privacy` handler: `none` models the `'Game not found'`
error reply. -/
def check_game_privacy {Pos : Type} (games : GamesMap Pos) (gameId : String) :
    Option Bool :=
  (mapGet games gameId).map (·.isPrivate)

/-- The `leaveGame` helper shared by the disconnect and create paths.
It vacates the leaving player's seat (or removes them from spectators) in
the session state unconditionally; `tracking` is the handler-local
`games: Map<string, Set<string>>` of connected socket ids, pruned when
empty or when the last seated player left.  The session `status` is never
written. -/
def leaveGame {Pos : Type} (games : GamesMap Pos)
    (tracking : List (String × List String)) (gameId playerId : String) :
    GamesMap Pos × List (String × List String) :=
  match mapGet games gameId with
  | none => (games, tracking)
  | some gs =>
    let vacated : GameState Pos × Bool :=
      if gs.white = some playerId then ({ gs with white := none }, true)
      else if gs.black = some playerId then ({ gs with black := none }, true)
      else ({ gs with spectators := gs.spectators.filter (· ≠ playerId) }, false)
    let gs1 := vacated.1
    let games1 := mapSet games gameId gs1
    let tracking1 :=
      match (tracking.find? (fun kv => kv.1 == gameId)).map (·.2) with
      | none => tracking
      | some players =>
        let players1 := players.filter (· ≠ playerId)
        if players1.length = 0 ∨ (vacated.2 ∧ gs1.white = none ∧ gs1.black = none) then
          tracking.filter (fun kv => kv.1 ≠ gameId)
        else
          tracking.map (fun kv => if kv.1 = gameId then (gameId, players1) else kv)
    (games1, tracking1)

/-- The `make_move` socket handler: apply the move through the manager and,
on success, evaluate `gameManager.isGameOver` for the broadcast — the read
that lazily flips `status` to `'ended'` when a stored clock is `<= 0`. -/
def make_move {Pos : Type} (E : RulesEngine Pos) (games : GamesMap Pos)
    (gameId playerId fromSq toSq : String) (now : Int) : Bool × GamesMap Pos :=
  let res := makeMove E games gameId playerId fromSq toSq now
  if res.1 then
    (true, (isGameOver E res.2 gameId).2)
  else
    res

/-- One mutating client command addressed at a fixed session, as dispatched
by the protocol handler.  `create_game` is excluded: it mints a fresh
session id, so it starts a new lifecycle rather than continuing one. -/
inductive SessionOp
  | join (playerId : String) (pref : Option Role) (now : Int)
  | joinH (compare : String → String → Bool) (socketId : String)
      (password : Option String) (now : Int)
  | move (playerId fromSq toSq : String) (now : Int)
  | leave (playerId : String)
  | rejoin (socketId : String) (token : Option Token)
  | checkOver

/-- Effect of one command on the session map (the handler-local connection
tracking set, which holds no session state, is passed empty to `leave`;
the session-map component of `leaveGame` does not read it). -/
def stepOp {Pos : Type} (E : RulesEngine Pos) (games : GamesMap Pos)
    (gameId : String) : SessionOp → GamesMap Pos
  | SessionOp.join pid pref now => (joinGame games gameId pid pref now).2
  | SessionOp.joinH cmp sid pw now => (join_game E cmp games sid gameId pw now).2
  | SessionOp.move pid f t now => (make_move E games gameId pid f t now).2
  | SessionOp.leave pid => (leaveGame games [] gameId pid).1
  | SessionOp.rejoin sid tok => (rejoin_game E games sid gameId tok).2
  | SessionOp.checkOver => (isGameOver E games gameId).2

/-! ### A concrete rules engine and a concrete session run, used to
evaluate the embedded operations at explicit inputs.

Positions are ply counters: white moves on even plies; a move to the
square `illegalTo` is rejected by the engine (chess.js returns `null` /
throws); a move with promotion piece `"q"` advances the ply by 1 and any
other promotion piece by 1000, so the resulting position records which
promotion argument the session layer passed; no position is terminal, so
any game end must come from the clock logic of the session layer. -/

def natEngine (illegalTo : String) : RulesEngine Nat :=
  { initial := 0
    turn := fun p => if p % 2 = 0 then Color.white else Color.black
    move := fun p _fromSq toSq promo =>
      if toSq = illegalTo then none
      else if promo = "q" then some (p + 1) else some (p + 1000)
    isOver := fun _ => false
    fen := fun p => toString p }

/-- The engine used by the concrete runs: only moves to `"x9"` are
illegal. -/
def tE : RulesEngine Nat := natEngine "x9"

/-- Fresh public session `"g"`. -/
def tG0 : GamesMap Nat := createGame tE [] "g" false none

/-- After white `"W"` joined at time 0 (still waiting). -/
def tG1 : GamesMap Nat := (joinGame tG0 "g" "W" (some Role.white) 0).2

/-- The session record stored in `tG1`. -/
def tGS1 : GameState Nat :=
  { game := 0
    white := some "W"
    black := none
    spectators := []
    lastMove := none
    startTime := none
    timeWhite := 900000
    timeBlack := 900000
    status := Status.waiting
    isPrivate := false
    passwordHash := none }

/-- After black `"B"` joined at time 100: both seats occupied, status
playing, clock anchor 100. -/
def tG2 : GamesMap Nat := (joinGame tG1 "g" "B" none 100).2

/-- The session record stored in `tG2`. -/
def tGS2 : GameState Nat :=
  { game := 0
    white := some "W"
    black := some "B"
    spectators := []
    lastMove := none
    startTime := some 100
    timeWhite := 900000
    timeBlack := 900000
    status := Status.playing
    isPrivate := false
    passwordHash := none }

/-- After white moved at time 960100, 960000 ms past the anchor: the move
is accepted, white's stored clock becomes -60000, and the `move_made`
broadcast's `isGameOver` read flips the status to ended. -/
def tG3 : GamesMap Nat := (make_move tE tG2 "g" "W" "e2" "e4" 960100).2

/-- After white moved legally at time 5000 (4900 ms past the anchor). -/
def tG4 : GamesMap Nat := (makeMove tE tG2 "g" "W" "e2" "e4" 5000).2

/-- A concrete stand-in for `bcrypt.hash` in the concrete runs. -/
def tHash : String → String := fun s => String.append "h:" s

/-- The matching stand-in for `bcrypt.compare(password, storedHash)`. -/
def tCmp : String → String → Bool := fun pw stored => tHash pw == stored

/-- A password-protected session `"p"` created by `"C"` with password
`"pw"`. -/
def tPG : GamesMap Nat := (create_game tE tHash [] "C" "p" true (some "pw") 0).2

/-- The session record stored in `tPG`. -/
def tPGS : GameState Nat :=
  { game := 0
    white := some "C"
    black := none
    spectators := []
    lastMove := none
    startTime := none
    timeWhite := 900000
    timeBlack := 900000
    status := Status.waiting
    isPrivate := true
    passwordHash := some "h:pw" }

/-- A session `"q"` created by `"C"` with `isPrivate` set but no password
value supplied. -/
def tPub : GamesMap Nat := (create_game tE tHash [] "C" "q" true none 0).2

/-- The session record stored in `tPub`. -/
def tPubGS : GameState Nat :=
  { game := 0
    white := some "C"
    black := none
    spectators := []
    lastMove := none
    startTime := none
    timeWhite := 900000
    timeBlack := 900000
    status := Status.waiting
    isPrivate := true
    passwordHash := none }

/-- Fallback of the spec's JoinSession role assignment, stated from the
spec's words: fill white before black, else assign observer. -/
def joinRoleFallback {Pos : Type} (gs : GameState Pos) : Role :=
  if gs.white = none then Role.white
  else if gs.black = none then Role.black
  else Role.spectator

/-- The spec's JoinSession role assignment for an identity not yet in the
session, stated from the spec's words (honor `preferredRole` if vacant;
else fill white before black; else assign observer), to be compared with
the role computed by the source's `joinGame`. -/
def joinRoleSpec {Pos : Type} (gs : GameState Pos) (pref : Option Role) : Role :=
  match pref with
  | some Role.white => if gs.white = none then Role.white else joinRoleFallback gs
  | some Role.black => if gs.black = none then Role.black else joinRoleFallback gs
  | some Role.spectator => Role.spectator
  | none => joinRoleFallback gs

/-! ### Basic lemmas about the session map -/

theorem mapGet_mapSet_self {Pos : Type} (m : GamesMap Pos) (k : String)
    (v : GameState Pos) : mapGet (mapSet m k v) k = some v := by
  unfold mapGet mapSet
  by_cases h : m.any (fun kv => kv.1 == k) = true
  · rw [if_pos h]
    induction m with
    | nil => simp at h
    | cons hd tl ih =>
      simp only [List.any_cons, Bool.or_eq_true, beq_iff_eq] at h
      by_cases hk : hd.1 = k
      · simp [hk]
      · have htl : tl.any (fun kv => kv.1 == k) = true := by
          rcases h with h | h
          · exact absurd h hk
          · simpa using h
        simp only [List.map_cons, if_neg hk]
        rw [List.find?_cons_of_neg _ (by simpa using hk)]
        exact ih htl
  · rw [if_neg h]
    simp only [Bool.not_eq_true, List.any_eq_false] at h
    induction m with
    | nil => simp
    | cons hd tl ih =>
      have hk : ¬ hd.1 = k := by
        have := h hd (by simp)
        simpa using this
      simp only [List.cons_append]
      rw [List.find?_cons_of_neg _ (by simpa using hk)]
      exact ih (fun kv hkv => h kv (by simp [hkv]))


/-! ### Per-operation lemmas -/

/-- After `joinGame` the session's status is either untouched or has moved
from waiting to playing. -/
theorem joinGame_status_ex {Pos : Type} {games : GamesMap Pos} {gameId : String}
    (pid : String) (pref : Option Role) (now : Int) {gs : GameState Pos}
    (h : mapGet games gameId = some gs) :
    ∃ gs', mapGet (joinGame games gameId pid pref now).2 gameId = some gs' ∧
      (gs'.status = gs.status ∨
        (gs.status = Status.waiting ∧ gs'.status = Status.playing)) ∧
      gs'.passwordHash = gs.passwordHash ∧ gs'.isPrivate = gs.isPrivate := by
  simp only [joinGame, h]
  split_ifs <;>
    first
      | exact ⟨gs, h, Or.inl rfl, rfl, rfl⟩
      | exact ⟨_, mapGet_mapSet_self .., by simp_all, by simp, by simp⟩

/-- After `makeMove` the session's status is either untouched or ended. -/
theorem makeMove_status_ex {Pos : Type} (E : RulesEngine Pos) {games : GamesMap Pos}
    {gameId : String} (pid f t : String) (now : Int) {gs : GameState Pos}
    (h : mapGet games gameId = some gs) :
    ∃ gs', mapGet (makeMove E games gameId pid f t now).2 gameId = some gs' ∧
      (gs'.status = gs.status ∨ gs'.status = Status.ended) ∧
      gs'.passwordHash = gs.passwordHash ∧ gs'.isPrivate = gs.isPrivate := by
  simp only [makeMove, h]
  rcases hmv : E.move gs.game f t "q" with _ | p <;>
    simp only [hmv] <;>
    split_ifs <;>
    first
      | exact ⟨gs, h, Or.inl rfl, rfl, rfl⟩
      | exact ⟨_, mapGet_mapSet_self .., by simp, by simp, by simp⟩

/-- After the `isGameOver` read the session's status is either untouched or
ended. -/
theorem isGameOver_status_ex {Pos : Type} (E : RulesEngine Pos) {games : GamesMap Pos}
    {gameId : String} {gs : GameState Pos}
    (h : mapGet games gameId = some gs) :
    ∃ gs', mapGet (isGameOver E games gameId).2 gameId = some gs' ∧
      (gs'.status = gs.status ∨ gs'.status = Status.ended) ∧
      gs'.passwordHash = gs.passwordHash ∧ gs'.isPrivate = gs.isPrivate := by
  simp only [isGameOver, h]
  split_ifs <;>
    first
      | exact ⟨gs, h, Or.inl rfl, rfl, rfl⟩
      | exact ⟨_, mapGet_mapSet_self .., by simp, by simp, by simp⟩

/-- After the `make_move` handler (manager move plus the `isGameOver`
broadcast read) the status is either untouched or ended. -/
theorem make_move_status_ex {Pos : Type} (E : RulesEngine Pos) {games : GamesMap Pos}
    {gameId : String} (pid f t : String) (now : Int) {gs : GameState Pos}
    (h : mapGet games gameId = some gs) :
    ∃ gs', mapGet (make_move E games gameId pid f t now).2 gameId = some gs' ∧
      (gs'.status = gs.status ∨ gs'.status = Status.ended) ∧
      gs'.passwordHash = gs.passwordHash ∧ gs'.isPrivate = gs.isPrivate := by
  obtain ⟨gs1, h1, hrel1, hph1, hpr1⟩ := makeMove_status_ex E pid f t now h
  simp only [make_move]
  split_ifs with hs
  · obtain ⟨gs2, h2, hrel2, hph2, hpr2⟩ := isGameOver_status_ex E h1
    exact ⟨gs2, h2, by rcases hrel1 with a | a <;> rcases hrel2 with b | b <;> simp_all,
      hph2.trans hph1, hpr2.trans hpr1⟩
  · exact ⟨gs1, h1, hrel1, hph1, hpr1⟩

/-- Full characterization of `leaveGame`'s effect on the session state:
the leaver's seat is vacated (or they are dropped from the spectators) and
nothing else — in particular not `status` — changes. -/
theorem leaveGame_get {Pos : Type} {games : GamesMap Pos}
    (tracking : List (String × List String)) {gameId : String} (pid : String)
    {gs : GameState Pos} (h : mapGet games gameId = some gs) :
    mapGet (leaveGame games tracking gameId pid).1 gameId =
      some (if gs.white = some pid then { gs with white := none }
            else if gs.black = some pid then { gs with black := none }
            else { gs with spectators := gs.spectators.filter (· ≠ pid) }) := by
  simp only [leaveGame, h]
  split_ifs <;> simp_all [mapGet_mapSet_self]

/-- A successful `rejoin_game` with a genuinely signed token for this
session rebinds the stored role to the presenting socket (displacing any
current holder), leaves every other field — including the position —
unchanged, and replies with the current position. -/
theorem rejoin_game_signed {Pos : Type} (E : RulesEngine Pos) {games : GamesMap Pos}
    {sid gameId : String} {p : TokenPayload} {gs : GameState Pos}
    (hgid : p.gameId = gameId) (h : mapGet games gameId = some gs) :
    rejoin_game E games sid gameId (some (Token.signed p)) =
      (RejoinReply.joined p.role (E.fen gs.game),
       mapSet games gameId
         (match p.role with
          | Role.white => { gs with white := some sid }
          | Role.black => { gs with black := some sid }
          | Role.spectator => { gs with spectators := specAdd gs.spectators sid })) := by
  cases hr : p.role <;>
    simp [rejoin_game, jwtVerify, hgid, h, hr, getFEN, mapGet_mapSet_self]

/-- The `rejoin_game` handler never changes the session's status. -/
theorem rejoin_game_status_ex {Pos : Type} (E : RulesEngine Pos) {games : GamesMap Pos}
    (sid : String) {gameId : String} (tok : Option Token) {gs : GameState Pos}
    (h : mapGet games gameId = some gs) :
    ∃ gs', mapGet (rejoin_game E games sid gameId tok).2 gameId = some gs' ∧
      gs'.status = gs.status ∧
      gs'.passwordHash = gs.passwordHash ∧ gs'.isPrivate = gs.isPrivate := by
  rcases tok with _ | tok
  · exact ⟨gs, h, rfl, rfl, rfl⟩
  rcases tok with p | _
  · by_cases hgid : p.gameId = gameId
    · rw [rejoin_game_signed E hgid h]
      cases p.role <;> exact ⟨_, mapGet_mapSet_self .., by simp, by simp, by simp⟩
    · exact ⟨gs, by simp [rejoin_game, jwtVerify, hgid]; exact h, rfl, rfl, rfl⟩
  · exact ⟨gs, h, rfl, rfl, rfl⟩

/-- The map component of `joinGameProceed` is exactly the map component of
the manager's `joinGame` with the handler-computed preference. -/
theorem joinGameProceed_snd {Pos : Type} (E : RulesEngine Pos) (games : GamesMap Pos)
    (sid gameId : String) (gs : GameState Pos) (now : Int) :
    (joinGameProceed E games sid gameId gs now).2 =
      (joinGame games gameId sid
        (some (if gs.white = none then Role.white
               else if gs.black = none then Role.black else Role.spectator)) now).2 := by
  simp only [joinGameProceed]
  rcases hres : (joinGame games gameId sid
      (some (if gs.white = none then Role.white
             else if gs.black = none then Role.black else Role.spectator)) now).1 with _ | r <;>
    simp [hres]

/-- After the `join_game` handler the status is either untouched or has
moved from waiting to playing. -/
theorem join_game_status_ex {Pos : Type} (E : RulesEngine Pos)
    (cmp : String → String → Bool) {games : GamesMap Pos}
    (sid : String) {gameId : String} (pw : Option String) (now : Int)
    {gs : GameState Pos} (h : mapGet games gameId = some gs) :
    ∃ gs', mapGet (join_game E cmp games sid gameId pw now).2 gameId = some gs' ∧
      (gs'.status = gs.status ∨
        (gs.status = Status.waiting ∧ gs'.status = Status.playing)) ∧
      gs'.passwordHash = gs.passwordHash ∧ gs'.isPrivate = gs.isPrivate := by
  simp only [join_game, h]
  split_ifs <;>
    first
      | exact ⟨gs, h, Or.inl rfl, rfl, rfl⟩
      | (rw [joinGameProceed_snd]; exact joinGame_status_ex _ _ _ h)



/-- In a waiting session, `joinGame` flips the status to playing and
initializes the clock anchor exactly when the join makes both colors
occupied. -/
theorem joinGame_waiting_transition {Pos : Type} {games : GamesMap Pos}
    {gameId pid : String} {pref : Option Role} {now : Int} {gs gs' : GameState Pos}
    (h : mapGet games gameId = some gs)
    (h' : mapGet (joinGame games gameId pid pref now).2 gameId = some gs')
    (hw : gs.status = Status.waiting) :
    (¬(gs.white ≠ none ∧ gs.black ≠ none) →
      (gs'.white ≠ none ∧ gs'.black ≠ none) →
      gs'.status = Status.playing ∧ gs'.startTime = some now) ∧
    (gs'.status = Status.playing →
      gs'.white ≠ none ∧ gs'.black ≠ none ∧ gs'.startTime = some now) := by
  simp only [joinGame, h] at h'
  split_ifs at h' with h1 h2 h3 h4 h5 h6 h7 h8 h9 h10 h11
  all_goals simp only [mapGet_mapSet_self, h, Option.some.injEq] at h'
  all_goals subst h'
  all_goals constructor
  all_goals intro hx
  all_goals simp_all

/-- No session-scoped command resurrects an ended session's status, none
returns a session to waiting, and none touches the stored privacy flag or
password hash. -/
theorem stepOp_status {Pos : Type} (E : RulesEngine Pos) {games : GamesMap Pos}
    {gameId : String} {op : SessionOp} {gs gs' : GameState Pos}
    (h : mapGet games gameId = some gs)
    (h' : mapGet (stepOp E games gameId op) gameId = some gs') :
    (gs.status = Status.ended → gs'.status = Status.ended) ∧
    (gs'.status = Status.waiting → gs.status = Status.waiting) ∧
    gs'.passwordHash = gs.passwordHash ∧ gs'.isPrivate = gs.isPrivate := by
  cases op with
  | join pid pref now =>
    obtain ⟨gs'', h'', hrel, hph, hpr⟩ := joinGame_status_ex pid pref now h
    simp only [stepOp] at h'
    rw [h''] at h'
    injection h' with h'
    subst h'
    rcases hrel with a | ⟨a, b⟩ <;>
      exact ⟨fun hx => by simp_all, fun hx => by simp_all, hph, hpr⟩
  | joinH cmp sid pw now =>
    obtain ⟨gs'', h'', hrel, hph, hpr⟩ := join_game_status_ex E cmp sid pw now h
    simp only [stepOp] at h'
    rw [h''] at h'
    injection h' with h'
    subst h'
    rcases hrel with a | ⟨a, b⟩ <;>
      exact ⟨fun hx => by simp_all, fun hx => by simp_all, hph, hpr⟩
  | move pid f t now =>
    obtain ⟨gs'', h'', hrel, hph, hpr⟩ := make_move_status_ex E pid f t now h
    simp only [stepOp] at h'
    rw [h''] at h'
    injection h' with h'
    subst h'
    rcases hrel with a | a <;>
      exact ⟨fun hx => by simp_all, fun hx => by simp_all, hph, hpr⟩
  | leave pid =>
    have hv := leaveGame_get [] pid h
    simp only [stepOp] at h'
    rw [hv] at h'
    injection h' with h'
    split_ifs at h' <;>
      (subst h'; exact ⟨fun hx => by simp_all, fun hx => by simp_all, rfl, rfl⟩)
  | rejoin sid tok =>
    obtain ⟨gs'', h'', hrel, hph, hpr⟩ := rejoin_game_status_ex E sid tok h
    simp only [stepOp] at h'
    rw [h''] at h'
    injection h' with h'
    subst h'
    exact ⟨fun hx => by simp_all, fun hx => by simp_all, hph, hpr⟩
  | checkOver =>
    obtain ⟨gs'', h'', hrel, hph, hpr⟩ := isGameOver_status_ex E h
    simp only [stepOp] at h'
    rw [h''] at h'
    injection h' with h'
    subst h'
    rcases hrel with a | a <;>
      exact ⟨fun hx => by simp_all, fun hx => by simp_all, hph, hpr⟩


/-- For any state stored for the session, `joinGame` returns some role. -/
theorem joinGame_fst_isSome {Pos : Type} {games : GamesMap Pos} {gameId : String}
    (pid : String) (pref : Option Role) (now : Int) {gs : GameState Pos}
    (h : mapGet games gameId = some gs) :
    ∃ r, (joinGame games gameId pid pref now).1 = some r := by
  simp only [joinGame, h]
  split_ifs <;> exact ⟨_, rfl⟩

/-- When the session exists, the tail of the `join_game` handler always
replies `game_joined` with the session's lastMove and privacy flag. -/
theorem joinGameProceed_joined {Pos : Type} (E : RulesEngine Pos) {games : GamesMap Pos}
    (sid : String) (now : Int) {gameId : String} {gs : GameState Pos}
    (h : mapGet games gameId = some gs) :
    ∃ (r : Role) (f : String) (games' : GamesMap Pos),
      joinGameProceed E games sid gameId gs now =
        (JoinReply.joined r f gs.lastMove gs.isPrivate, games') := by
  obtain ⟨r, hr⟩ := joinGame_fst_isSome sid
    (some (if gs.white = none then Role.white
      else if gs.black = none then Role.black else Role.spectator)) now h
  simp only [joinGameProceed, hr]
  exact ⟨_, _, _, rfl⟩

/-! ### The claims -/

/-- C1: the claim says every rejected `makeMove` request leaves the entire
session state unchanged.  The code violates this: in the concrete run
`tG2` (white `"W"` to move, clock anchor 100, stored `timeWhite` 900000),
the move `a1 → x9` at time 5000 is rejected by the rules engine — the call
returns `false` — yet the stored state was already mutated: white's clock
was charged the elapsed 4900 ms (900000 → 895100) before the engine was
consulted, and the anchor was not advanced, so a retry is charged the same
elapsed time again.  Position, lastMove and anchor are indeed unchanged. -/
theorem C1_rejected_illegal_move_charges_clock :
    mapGet tG2 "g" = some tGS2 ∧
    tGS2.timeWhite = 900000 ∧
    (makeMove tE tG2 "g" "W" "a1" "x9" 5000).1 = false ∧
    (mapGet (makeMove tE tG2 "g" "W" "a1" "x9" 5000).2 "g").map
      (fun gs => (gs.timeWhite, gs.game, gs.lastMove, gs.startTime)) =
      some (895100, 0, none, some 100) := by decide

/-- C2 counterexample: the claim says that once a session's status is
Ended no further moves are accepted.  In the concrete run `tG3` the
session was Ended by clock expiry (white's accepted move overshot the
clock and the `move_made` broadcast's `isGameOver` read set
`status = ended`), yet black's next legal move is accepted —
`makeMove` never consults `status`. -/
theorem C2_cex_move_accepted_after_ended :
    (mapGet tG3 "g").map (fun gs => gs.status) = some Status.ended ∧
    (make_move tE tG3 "g" "B" "e7" "e5" 960200).1 = true := by decide

/-- C2 (amended): every session's status begins at Waiting with no clock
anchor; `joinGame` transitions Waiting→Playing exactly at the instant the
join makes both colors occupied, initializing `clockAnchor`; no
session-scoped command returns a status to Waiting or changes a status
away from Ended.  The original claim's final clause — that no further
moves are accepted once Ended — is false (see the counterexample):
`makeMove` does not consult `status`, so a session Ended by clock expiry
still accepts legal moves. -/
theorem C2_status_lifecycle {Pos : Type} (E : RulesEngine Pos) (gameId : String) :
    (∀ (games : GamesMap Pos) (isPrivate : Bool) (pwh : Option String),
      (mapGet (createGame E games gameId isPrivate pwh) gameId).map
        (fun gs => (gs.status, gs.startTime)) = some (Status.waiting, none)) ∧
    (∀ (games : GamesMap Pos) (op : SessionOp) (gs gs' : GameState Pos),
      mapGet games gameId = some gs →
      mapGet (stepOp E games gameId op) gameId = some gs' →
      (gs.status = Status.ended → gs'.status = Status.ended) ∧
      (gs'.status = Status.waiting → gs.status = Status.waiting)) ∧
    (∀ (games : GamesMap Pos) (pid : String) (pref : Option Role) (now : Int)
        (gs gs' : GameState Pos),
      mapGet games gameId = some gs →
      mapGet (joinGame games gameId pid pref now).2 gameId = some gs' →
      ((gs.status = Status.waiting →
        ((¬(gs.white ≠ none ∧ gs.black ≠ none) →
           (gs'.white ≠ none ∧ gs'.black ≠ none) →
           gs'.status = Status.playing ∧ gs'.startTime = some now) ∧
         (gs'.status = Status.playing →
           gs'.white ≠ none ∧ gs'.black ≠ none ∧ gs'.startTime = some now))) ∧
       (gs.status ≠ Status.waiting → gs'.status = gs.status))) := by
  refine ⟨?_, ?_, ?_⟩
  · intro games isPrivate pwh
    simp [createGame, mapGet_mapSet_self]
  · intro games op gs gs' h h'
    exact ⟨(stepOp_status E h h').1, (stepOp_status E h h').2.1⟩
  · intro games pid pref now gs gs' h h'
    refine ⟨fun hw => joinGame_waiting_transition h h' hw, fun hnw => ?_⟩
    obtain ⟨gs'', h'', hrel, hph, hpr⟩ := joinGame_status_ex pid pref now h
    rw [h''] at h'
    injection h' with h'
    subst h'
    rcases hrel with a | ⟨a, b⟩
    · exact a
    · exact absurd a hnw

/-- Witness for C2 at the concrete run: the join of black `"B"` at time
100 is the instant both colors become occupied, and it sets the status to
playing with the anchor initialized to 100. -/
theorem C2_status_lifecycle_witness :
    tGS2.status = Status.playing ∧ tGS2.startTime = some 100 := by
  have h := (C2_status_lifecycle tE "g").2.2 tG1 "B" none 100 tGS1 tGS2
    (by decide) (by decide)
  exact (h.1 (by decide)).1 (by decide) (by decide)

/-- C3 counterexample: the claim says a leave by a color-holder in a
non-Ended session reverts the status to Waiting.  In the concrete run
`tG2` (status playing, black held by `"B"`), `leaveGame` vacates the black
seat but the status remains playing: the code never writes `status` on
the leave path. -/
theorem C3_cex_status_not_reverted_to_waiting :
    (mapGet tG2 "g").map (fun gs => gs.status) = some Status.playing ∧
    (mapGet (leaveGame tG2 [("g", ["W", "B"])] "g" "B").1 "g").map
      (fun gs => (gs.black, gs.status)) = some (none, Status.playing) := by decide

/-- C3 (amended): `leaveGame` by a participant holding a color vacates
exactly that color — the post-state is the pre-state with the seat set to
none, so clocks, position, lastMove, anchor and in particular `status` are
all unchanged; the status does not revert to Waiting. -/
theorem C3_leave_vacates_seat_status_unchanged {Pos : Type}
    (tracking : List (String × List String)) (pid : String) {games : GamesMap Pos}
    {gameId : String} {gs : GameState Pos}
    (h : mapGet games gameId = some gs) :
    (gs.white = some pid →
      mapGet (leaveGame games tracking gameId pid).1 gameId =
        some { gs with white := none }) ∧
    (gs.white ≠ some pid → gs.black = some pid →
      mapGet (leaveGame games tracking gameId pid).1 gameId =
        some { gs with black := none }) := by
  have hv := leaveGame_get tracking pid h
  constructor
  · intro hw
    rw [hv, if_pos hw]
  · intro hw hb
    rw [hv, if_neg hw, if_pos hb]

/-- Witness for C3 at the concrete run: black `"B"` leaves `tG2` and only
the black seat changes. -/
theorem C3_leave_witness :
    mapGet (leaveGame tG2 [("g", ["W", "B"])] "g" "B").1 "g" =
      some { tGS2 with black := none } :=
  (C3_leave_vacates_seat_status_unchanged [("g", ["W", "B"])] "B"
    (by decide : mapGet tG2 "g" = some tGS2)).2 (by decide) (by decide)

/-- C4: on an accepted legal move with a nonzero clock anchor `t`, the
post-state holds the engine's resulting position and the new lastMove, the
anchor is set to `now`, the mover's clock decreased by exactly the elapsed
`now - t`, and the other side's clock is unchanged — all in the single
stored update. -/
theorem C4_accepted_move_clock_charge {Pos : Type} (E : RulesEngine Pos)
    {games games' : GamesMap Pos} {gameId pid fromSq toSq : String} {now t : Int}
    {gs : GameState Pos}
    (h : mapGet games gameId = some gs)
    (hanchor : gs.startTime = some t) (ht : t ≠ 0)
    (hres : makeMove E games gameId pid fromSq toSq now = (true, games')) :
    ∃ gs', mapGet games' gameId = some gs' ∧
      E.move gs.game fromSq toSq "q" = some gs'.game ∧
      gs'.lastMove = some (fromSq, toSq) ∧
      gs'.startTime = some now ∧
      (E.turn gs.game = Color.white →
        gs'.timeWhite = gs.timeWhite - (now - t) ∧ gs'.timeBlack = gs.timeBlack) ∧
      (E.turn gs.game = Color.black →
        gs'.timeBlack = gs.timeBlack - (now - t) ∧ gs'.timeWhite = gs.timeWhite) := by
  simp only [makeMove, h, hanchor, intFalsy, ht, decide_eq_true_eq, if_false,
    Option.getD_some] at hres
  rcases hmv : E.move gs.game fromSq toSq "q" with _ | p <;> simp only [hmv] at hres
  all_goals split_ifs at hres
  all_goals simp only [Prod.mk.injEq, Bool.false_eq_true, false_and, true_and] at hres
  all_goals subst hres
  all_goals exact ⟨_, mapGet_mapSet_self .., by simp [hmv], by simp, by simp,
    fun hw => by simp_all, fun hb => by simp_all⟩

/-- Witness for C4 at the concrete run: white's accepted move `e2 → e4` at
time 5000 against the anchor 100. -/
theorem C4_clock_witness :
    ∃ gs', mapGet tG4 "g" = some gs' ∧
      tE.move tGS2.game "e2" "e4" "q" = some gs'.game ∧
      gs'.lastMove = some ("e2", "e4") ∧
      gs'.startTime = some 5000 ∧
      (tE.turn tGS2.game = Color.white →
        gs'.timeWhite = tGS2.timeWhite - (5000 - 100) ∧ gs'.timeBlack = tGS2.timeBlack) ∧
      (tE.turn tGS2.game = Color.black →
        gs'.timeBlack = tGS2.timeBlack - (5000 - 100) ∧ gs'.timeWhite = tGS2.timeWhite) :=
  C4_accepted_move_clock_charge tE
    (by decide : mapGet tG2 "g" = some tGS2)
    (by decide : tGS2.startTime = some 100)
    (by decide : (100 : Int) ≠ 0)
    (by decide : makeMove tE tG2 "g" "W" "e2" "e4" 5000 = (true, tG4))

/-- C5: a `rejoin_game` whose token carries a valid signature and the
requested session id rebinds the stored role to the presenting socket,
unconditionally displacing whatever connection currently holds that seat,
changes nothing else, and replies with the current position; a missing
token, an invalid signature, or a mismatched session id leaves the session
map entirely unchanged. -/
theorem C5_rejoin_rebind_or_no_change {Pos : Type} (E : RulesEngine Pos)
    (games : GamesMap Pos) (sid gameId : String) :
    (∀ (p : TokenPayload) (gs : GameState Pos),
      p.gameId = gameId → mapGet games gameId = some gs →
      rejoin_game E games sid gameId (some (Token.signed p)) =
        (RejoinReply.joined p.role (E.fen gs.game),
         mapSet games gameId
           (match p.role with
            | Role.white => { gs with white := some sid }
            | Role.black => { gs with black := some sid }
            | Role.spectator => { gs with spectators := specAdd gs.spectators sid }))) ∧
    ((rejoin_game E games sid gameId none).2 = games) ∧
    ((rejoin_game E games sid gameId (some Token.invalid)).2 = games) ∧
    (∀ p : TokenPayload, p.gameId ≠ gameId →
      (rejoin_game E games sid gameId (some (Token.signed p))).2 = games) := by
  refine ⟨fun p gs hgid h => rejoin_game_signed E hgid h, rfl, ?_, fun p hgid => ?_⟩
  · simp [rejoin_game, jwtVerify]
  · simp [rejoin_game, jwtVerify, hgid]

/-- Witness for C5 at the concrete run: a signed black token rebinds the
seat to the presenting socket `"R2"`, displacing `"B"` and returning the
unchanged position; an invalid token and a session-id mismatch change
nothing. -/
theorem C5_rejoin_witness :
    rejoin_game tE tG2 "R2" "g" (some (Token.signed ⟨"g", "B", Role.black, false⟩)) =
      (RejoinReply.joined Role.black (tE.fen tGS2.game),
       mapSet tG2 "g" { tGS2 with black := some "R2" }) ∧
    (rejoin_game tE tG2 "R2" "g" (some Token.invalid)).2 = tG2 ∧
    (rejoin_game tE tG2 "R2" "h" (some (Token.signed ⟨"g", "B", Role.black, false⟩))).2 =
      tG2 := by
  have h := C5_rejoin_rebind_or_no_change tE tG2 "R2" "g"
  exact ⟨h.1 ⟨"g", "B", Role.black, false⟩ tGS2 rfl (by decide), h.2.2.1,
    (C5_rejoin_rebind_or_no_change tE tG2 "R2" "h").2.2.2
      ⟨"g", "B", Role.black, false⟩ (by decide)⟩

/-- C6: for a session that is private and stores a password hash, a join
with no password is answered `Password required` with no state change and
no role; a join whose password fails the hash comparison is answered
`Invalid password` with no state change and no role; a join whose password
passes the comparison proceeds and is answered `game_joined` with a
role. -/
theorem C6_password_gate {Pos : Type} (E : RulesEngine Pos)
    (cmp : String → String → Bool) (sid : String) {games : GamesMap Pos}
    {gameId : String} {gs : GameState Pos} {stored : String}
    (h : mapGet games gameId = some gs)
    (hpriv : gs.isPrivate = true) (hhash : gs.passwordHash = some stored) :
    (∀ now : Int, join_game E cmp games sid gameId none now =
      (JoinReply.passwordRequired, games)) ∧
    (∀ (pw : String) (now : Int), pw ≠ "" → cmp pw stored = false →
      join_game E cmp games sid gameId (some pw) now =
        (JoinReply.invalidPassword, games)) ∧
    (∀ (pw : String) (now : Int), pw ≠ "" → cmp pw stored = true →
      ∃ (r : Role) (f : String) (games' : GamesMap Pos),
        join_game E cmp games sid gameId (some pw) now =
          (JoinReply.joined r f gs.lastMove gs.isPrivate, games')) := by
  refine ⟨fun now => ?_, fun pw now hpw hcmp => ?_, fun pw now hpw hcmp => ?_⟩
  · simp [join_game, h, hpriv, hhash, strFalsy]
  · simp [join_game, h, hpriv, hhash, strFalsy, hpw, hcmp]
  · simp [join_game, h, hpriv, hhash, strFalsy, hpw, hcmp]
    have hj := joinGameProceed_joined E sid now h
    simpa [hpriv] using hj

/-- Witness for C6 at the concrete private session `tPG` (stored hash of
`"pw"`): no password is refused as missing, `"bad"` as invalid, and
`"pw"` joins with a role. -/
theorem C6_password_witness :
    join_game tE tCmp tPG "J" "p" none 50 = (JoinReply.passwordRequired, tPG) ∧
    join_game tE tCmp tPG "J" "p" (some "bad") 50 = (JoinReply.invalidPassword, tPG) ∧
    ∃ (r : Role) (f : String) (games' : GamesMap Nat),
      join_game tE tCmp tPG "J" "p" (some "pw") 50 =
        (JoinReply.joined r f tPGS.lastMove tPGS.isPrivate, games') := by
  have h := C6_password_gate tE tCmp "J"
    (by decide : mapGet tPG "p" = some tPGS)
    (by decide : tPGS.isPrivate = true)
    (by decide : tPGS.passwordHash = some "h:pw")
  exact ⟨h.1 50, h.2.1 "bad" 50 (by decide) (by decide),
    h.2.2 "pw" 50 (by decide) (by decide)⟩

/-- C7: `joinGame` is idempotent — an identity already seated as white,
black, or spectating gets that same role back with the session map
untouched — and otherwise assigns the role deterministically, matching the
spec's rule `joinRoleSpec` (honor the preference if vacant; else fill
white before black; else observer). -/
theorem C7_join_idempotent_roles {Pos : Type} (pid : String) (pref : Option Role)
    (now : Int) {games : GamesMap Pos} {gameId : String} {gs : GameState Pos}
    (h : mapGet games gameId = some gs) :
    (gs.white = some pid →
      joinGame games gameId pid pref now = (some Role.white, games)) ∧
    (gs.white ≠ some pid → gs.black = some pid →
      joinGame games gameId pid pref now = (some Role.black, games)) ∧
    (gs.white ≠ some pid → gs.black ≠ some pid → pid ∈ gs.spectators →
      joinGame games gameId pid pref now = (some Role.spectator, games)) ∧
    (gs.white ≠ some pid → gs.black ≠ some pid → pid ∉ gs.spectators →
      (joinGame games gameId pid pref now).1 = some (joinRoleSpec gs pref)) := by
  refine ⟨fun hw => ?_, fun hw hb => ?_, fun hw hb hs => ?_, fun hw hb hs => ?_⟩
  · simp [joinGame, h, hw]
  · simp [joinGame, h, hw, hb]
  · simp [joinGame, h, hw, hb, hs]
  · simp only [joinGame, h, if_neg hw, if_neg hb, if_neg hs]
    rcases pref with _ | r
    · by_cases hwv : gs.white = none <;> by_cases hbv : gs.black = none <;>
        simp_all [joinRoleSpec, joinRoleFallback]
    · cases r <;> by_cases hwv : gs.white = none <;> by_cases hbv : gs.black = none <;>
        simp_all [joinRoleSpec, joinRoleFallback]

/-- Witness for C7 at the concrete run `tG1` (white `"W"` seated, black
vacant): rejoining `"W"` is idempotent and a fresh `"X"` with no
preference is assigned per the spec rule, namely black. -/
theorem C7_join_witness :
    joinGame tG1 "g" "W" none 50 = (some Role.white, tG1) ∧
    (joinGame tG1 "g" "X" none 50).1 = some (joinRoleSpec tGS1 none) ∧
    joinRoleSpec tGS1 none = Role.black := by
  refine ⟨?_, ?_, by decide⟩
  · exact (C7_join_idempotent_roles "W" none 50
      (by decide : mapGet tG1 "g" = some tGS1)).1 (by decide)
  · exact (C7_join_idempotent_roles "X" none 50
      (by decide : mapGet tG1 "g" = some tGS1)).2.2.2 (by decide) (by decide) (by decide)

/-- C8: `getTimeLeft` never mutates the session map (its state component
is returned untouched); it returns the stored clocks verbatim when the
anchor is falsy or the status is not playing, and otherwise applies a
display-only decrement of the elapsed time since the anchor, clamped at
zero, to the clock of the side to move only. -/
theorem C8_read_clocks_display_only {Pos : Type} (E : RulesEngine Pos) (now : Int)
    {games : GamesMap Pos} {gameId : String} {gs : GameState Pos}
    (h : mapGet games gameId = some gs) :
    (getTimeLeft E games gameId now).2 = games ∧
    (intFalsy gs.startTime = true ∨ gs.status ≠ Status.playing →
      (getTimeLeft E games gameId now).1 = (gs.timeWhite, gs.timeBlack)) ∧
    (∀ t : Int, gs.startTime = some t → t ≠ 0 → gs.status = Status.playing →
      (E.turn gs.game = Color.white →
        (getTimeLeft E games gameId now).1 =
          (max 0 (gs.timeWhite - (now - t)), gs.timeBlack)) ∧
      (E.turn gs.game = Color.black →
        (getTimeLeft E games gameId now).1 =
          (gs.timeWhite, max 0 (gs.timeBlack - (now - t))))) := by
  refine ⟨?_, fun hcond => ?_, fun t hst ht hpl => ?_⟩
  · simp only [getTimeLeft, h]
    split_ifs <;> rfl
  · simp only [getTimeLeft, h]
    split_ifs
    rfl
  · constructor <;> intro hturn <;>
      simp only [getTimeLeft, h, hst, hpl, hturn, intFalsy, Option.getD_some] <;>
      split_ifs <;> simp_all

/-- Witness for C8 at the concrete run `tG2` (playing, anchor 100, white
to move) read at time 5000: white's displayed clock is decremented by the
elapsed 4900 ms, black's is untouched, and the map is unchanged. -/
theorem C8_clocks_witness :
    (getTimeLeft tE tG2 "g" 5000).2 = tG2 ∧
    (getTimeLeft tE tG2 "g" 5000).1 =
      (max 0 (tGS2.timeWhite - (5000 - 100)), tGS2.timeBlack) := by
  have h := C8_read_clocks_display_only tE 5000
    (by decide : mapGet tG2 "g" = some tGS2)
  exact ⟨h.1, (h.2.2 100 (by decide) (by decide) (by decide)).1 (by decide)⟩

/-- C9: the session layer always passes promotion piece `"q"` to the rules
engine — every accepted move's resulting position is the engine's result
for promotion `"q"` — and since the `make_move` payload carries only a
from-square and a to-square, a client has no way to choose a different
promotion piece. -/
theorem C9_promotion_always_queen {Pos : Type} (E : RulesEngine Pos)
    {games games' : GamesMap Pos} {gameId pid fromSq toSq : String} {now : Int}
    {gs : GameState Pos}
    (h : mapGet games gameId = some gs)
    (hres : makeMove E games gameId pid fromSq toSq now = (true, games')) :
    ∃ gs', mapGet games' gameId = some gs' ∧
      E.move gs.game fromSq toSq "q" = some gs'.game := by
  simp only [makeMove, h] at hres
  rcases hmv : E.move gs.game fromSq toSq "q" with _ | p <;> simp only [hmv] at hres
  all_goals split_ifs at hres
  all_goals simp only [Prod.mk.injEq, Bool.false_eq_true, false_and, true_and] at hres
  all_goals subst hres
  all_goals exact ⟨_, mapGet_mapSet_self .., by simp [hmv]⟩

/-- Witness for C9 at the concrete run: the engine `tE` yields ply `p + 1`
for promotion `"q"` and `p + 1000` for any other promotion piece, and the
accepted move's stored position is the `"q"` result. -/
theorem C9_promotion_witness :
    tE.move tGS2.game "e2" "e4" "n" = some 1000 ∧
    ∃ gs', mapGet tG4 "g" = some gs' ∧
      tE.move tGS2.game "e2" "e4" "q" = some gs'.game := by
  refine ⟨by decide, ?_⟩
  exact C9_promotion_always_queen tE
    (by decide : mapGet tG2 "g" = some tGS2)
    (by decide : makeMove tE tG2 "g" "W" "e2" "e4" 5000 = (true, tG4))

/-- C10: creating a session with `isPrivate` true but no password value
stores no password hash while keeping the privacy flag; every subsequent
`join_game` with no password then proceeds to a `game_joined` reply (the
password gate requires a stored hash), `check_game_privacy` still reports
the session private, and no session-scoped command ever writes the stored
hash or privacy flag. -/
theorem C10_private_no_password {Pos : Type} (E : RulesEngine Pos)
    (hash : String → String) (games : GamesMap Pos) (sid gameId : String) (now : Int) :
    (∀ gs', mapGet (create_game E hash games sid gameId true none now).2 gameId = some gs' →
       gs'.isPrivate = true ∧ gs'.passwordHash = none) ∧
    (check_game_privacy (create_game E hash games sid gameId true none now).2 gameId =
      some true) ∧
    (∀ (cmp : String → String → Bool) (games2 : GamesMap Pos) (sid2 : String)
        (now2 : Int) (gs : GameState Pos),
      mapGet games2 gameId = some gs → gs.passwordHash = none →
      ∃ (r : Role) (f : String) (games' : GamesMap Pos),
        join_game E cmp games2 sid2 gameId none now2 =
          (JoinReply.joined r f gs.lastMove gs.isPrivate, games')) ∧
    (∀ (games2 : GamesMap Pos) (op : SessionOp) (gs gs' : GameState Pos),
      mapGet games2 gameId = some gs →
      mapGet (stepOp E games2 gameId op) gameId = some gs' →
      gs'.passwordHash = gs.passwordHash ∧ gs'.isPrivate = gs.isPrivate) := by
  have hC : mapGet (createGame E games gameId true none) gameId =
      some { game := E.initial, white := none, black := none, spectators := [],
             lastMove := none, startTime := none, timeWhite := DEFAULT_TIME,
             timeBlack := DEFAULT_TIME, status := Status.waiting,
             isPrivate := true, passwordHash := none } := by
    simp [createGame, mapGet_mapSet_self]
  have hcreate : (create_game E hash games sid gameId true none now).2 =
      (joinGame (createGame E games gameId true none) gameId sid (some Role.white) now).2 := by
    simp [create_game, strFalsy]
  obtain ⟨gs'', h'', hrel, hph, hpr⟩ := joinGame_status_ex sid (some Role.white) now hC
  refine ⟨fun gs' hg' => ?_, ?_, fun cmp games2 sid2 now2 gs hget hhash => ?_,
    fun games2 op gs gs' hg hg' =>
      ⟨(stepOp_status E hg hg').2.2.1, (stepOp_status E hg hg').2.2.2⟩⟩
  · rw [hcreate, h''] at hg'
    injection hg' with hg'
    subst hg'
    exact ⟨hpr, hph⟩
  · rw [hcreate]
    simp [check_game_privacy, h'']
    exact hpr
  · simp only [join_game, hget, hhash]
    simp only [ne_eq, not_true_eq_false, and_false, if_false]
    exact joinGameProceed_joined E sid2 now2 hget

/-- Witness for C10 at the concrete run `tPub` (created private with no
password): the stored record has the flag and no hash, the privacy check
reports private, and a later passwordless join gets a `game_joined`
reply. -/
theorem C10_private_witness :
    ((mapGet tPub "q").map (fun gs => (gs.isPrivate, gs.passwordHash)) =
      some (true, none)) ∧
    check_game_privacy tPub "q" = some true ∧
    ∃ (r : Role) (f : String) (games' : GamesMap Nat),
      join_game tE tCmp tPub "J" "q" none 70 =
        (JoinReply.joined r f none true, games') := by
  have h := C10_private_no_password tE tHash [] "C" "q" 0
  refine ⟨?_, ?_, ?_⟩
  · have h1 := h.1 tPubGS (by decide)
    decide
  · exact h.2.1
  · have h3 := h.2.2.1 tCmp tPub "J" 70 tPubGS (by decide) (by decide)
    simpa using h3

end ChessServer
